import Mathlib

/-!
Shallow embedding of the measurement aggregator (src/common/measurement.c),
the NM channel/timeslot FSM, the NM site-manager FSM
(src/common/nm_bts_sm_fsm.c) and the Abis link FSM of the osmo-bts
repository, together with theorems settling the frozen claims about them.

Machine integers are modelled as Nat/Int; `% 4294967296` (resp. `% 2^64`)
appears exactly where the C code performs unsigned 32-bit (resp. 64-bit)
arithmetic whose wraparound is defined behaviour.  Signed C arithmetic,
whose overflow is undefined behaviour and unreachable for the field ranges
involved, is modelled with unbounded Int.
-/

namespace OsmoBts

/-- The modulus 2^32 of C unsigned 32-bit arithmetic. -/
def U32 : Nat := 4294967296

/-- The modulus 2^64 of C unsigned 64-bit arithmetic. -/
def U64 : Nat := 18446744073709551616

/-- errno value ENOSPC (no space left), returned negated by the C code. -/
def ENOSPC : Int := 28

/-- One uplink measurement sample (struct bts_ul_meas).
`ber10k` is a uint32 (BER in steps of 0.01%), `ta_offs_256bits` and `ci_cb`
are int16, `inv_rssi` is a uint8 (inverted RSSI, dBm magnitude). -/
structure BtsUlMeas where
  ber10k : Nat
  ta_offs_256bits : Int
  ci_cb : Int
  is_sub : Bool
  inv_rssi : Nat
deriving Repr, DecidableEq

/-- MEASUREMENT_DUMMY_BER: 100% BER. -/
def MEASUREMENT_DUMMY_BER : Nat := 10000

/-- MEASUREMENT_DUMMY_IRSSI: noise floor in -dBm. -/
def MEASUREMENT_DUMMY_IRSSI : Nat := 109

/-- The dummy measurement substituted for missing samples
(static const struct bts_ul_meas measurement_dummy). -/
def measurement_dummy : BtsUlMeas :=
  { ber10k := MEASUREMENT_DUMMY_BER
    ta_offs_256bits := 0
    ci_cb := 0
    is_sub := false
    inv_rssi := MEASUREMENT_DUMMY_IRSSI }

/-- enum gsm_phys_chan_config, restricted to the values the measurement
code distinguishes; `otherPchan` stands for every remaining value
(the default cases of the C switches). -/
inductive Pchan where
  | tchF
  | tchH
  | sdcch8
  | sdcch8Cbch
  | ccchSdcch4
  | ccchSdcch4Cbch
  | otherPchan
deriving Repr, DecidableEq

/-- enum gsm_chan_t values distinguished by ts45008_83_is_sub. -/
inductive LchanType where
  | tchF
  | tchH
  | sdcch
  | otherType
deriving Repr, DecidableEq

/-- enum gsm48_chan_mode values distinguished by the measurement code
(GSM48_CMODE_SIGN, _SPEECH_V1, _SPEECH_EFR, _SPEECH_AMR, data modes). -/
inductive TchMode where
  | signMode
  | speechV1
  | speechEfr
  | speechAmr
  | data12k0
  | data6k0
  | data3k6
  | otherMode
deriving Repr, DecidableEq

/-- enum gsm_lchan_state (lchan->state). -/
inductive LchanState where
  | sNone
  | actReq
  | active
  | relReq
  | relErr
  | broken
  | inactive
deriving Repr, DecidableEq

/-- The lchan fields the embedded measurement functions read.
`pchan` is ts_pchan(lchan->ts), `tsNr` is lchan->ts->nr, `nr` is lchan->nr,
`rsl_cmode_data` is (lchan->rsl_cmode == RSL_CMOD_SPD_DATA). -/
structure Lchan where
  pchan : Pchan
  tsNr : Nat
  nr : Nat
  lchanType : LchanType
  tch_mode : TchMode
  rsl_cmode_data : Bool
  lchanState : LchanState
deriving Repr, DecidableEq

/-- Aggregated unidirectional result (struct gsm_meas_rep_unidir). -/
structure GsmMeasRepUnidir where
  rx_lev : Int
  rx_qual : Nat
deriving Repr, DecidableEq

/-- The FULL/SUB result pair (lchan->meas.ul_res). -/
structure MeasResPair where
  full : GsmMeasRepUnidir
  sub : GsmMeasRepUnidir
deriving Repr, DecidableEq

/-- The measurement state carried per logical channel (lchan->meas).
`uplink` holds the first num_ul_meas entries of the C array, in order of
arrival; num_ul_meas is its length.  The two flag booleans model
LC_UL_M_F_RES_VALID and LC_UL_M_F_OSMO_EXT_VALID. -/
structure LchanMeas where
  uplink : List BtsUlMeas
  last_fn : Nat
  ms_toa256 : Int
  ul_ci_cb_full : Int
  ul_ci_cb_sub : Int
  ul_res : MeasResPair
  ext_toa256_min : Int
  ext_toa256_max : Int
  ext_toa256_std_dev : Nat
  res_valid : Bool
  ext_valid : Bool
deriving Repr, DecidableEq

/-- ts45008_dtx_tchh_fn_map: the TDMA frames (mod 104) starting a SUB block
on TCH/H, nonzero at indices 0, 52, 14, 66. -/
def ts45008_dtx_tchh_fn_map (fn104 : Nat) : Bool :=
  fn104 == 0 || fn104 == 52 || fn104 == 14 || fn104 == 66

/-- ts45008_83_is_sub: decide whether frame number fn belongs to the "-SUB"
measurement subset.  The C data-mode and unsupported-mode branches all fall
through to returning false (the rsl_cmode test only selects whether an
error is logged first). -/
def ts45008_83_is_sub (l : Lchan) (fn : Nat) : Bool :=
  let fn104 := fn % 104
  if l.tch_mode = TchMode.speechAmr then false
  else
    match l.lchanType with
    | LchanType.tchF =>
      match l.tch_mode with
      | TchMode.speechV1 | TchMode.speechEfr => fn104 == 52
      | TchMode.signMode => true
      | _ => false
    | LchanType.tchH =>
      match l.tch_mode with
      | TchMode.speechV1 => ts45008_dtx_tchh_fn_map fn104
      | TchMode.signMode => true
      | _ => false
    | LchanType.sdcch => true
    | _ => false

/-- tchf_meas_rep_fn104_by_ts lookup table (index: timeslot number). -/
def tchf_meas_rep_fn104_by_ts : Nat → Nat
  | 0 => 90
  | 1 => 103
  | 2 => 12
  | 3 => 25
  | 4 => 38
  | 5 => 51
  | 6 => 64
  | 7 => 77
  | _ => 0

/-- tchh0_meas_rep_fn104_by_ts lookup table (index: timeslot number). -/
def tchh0_meas_rep_fn104_by_ts : Nat → Nat
  | 0 => 90
  | 1 => 90
  | 2 => 12
  | 3 => 12
  | 4 => 38
  | 5 => 38
  | 6 => 64
  | 7 => 64
  | _ => 0

/-- tchh1_meas_rep_fn104_by_ts lookup table (index: timeslot number). -/
def tchh1_meas_rep_fn104_by_ts : Nat → Nat
  | 0 => 103
  | 1 => 103
  | 2 => 25
  | 3 => 25
  | 4 => 51
  | 5 => 51
  | 6 => 77
  | 7 => 77
  | _ => 0

/-- sdcch8_meas_rep_fn102_by_ss lookup table (index: subslot number). -/
def sdcch8_meas_rep_fn102_by_ss : Nat → Nat
  | 0 => 66
  | 1 => 70
  | 2 => 74
  | 3 => 78
  | 4 => 98
  | 5 => 0
  | 6 => 4
  | 7 => 8
  | _ => 0

/-- sdcch4_meas_rep_fn102_by_ss lookup table (index: subslot number). -/
def sdcch4_meas_rep_fn102_by_ss : Nat → Nat
  | 0 => 88
  | 1 => 92
  | 2 => 6
  | 3 => 10
  | _ => 0

/-- translate_tch_meas_rep_fn104: map the SACCH reception frame (mod 104)
to the frame at which the corresponding measurement period really ended;
any other input is invalid / not of interest and yields 0. -/
def translate_tch_meas_rep_fn104 (fn_mod : Nat) : Nat :=
  if fn_mod = 25 then 103
  else if fn_mod = 38 then 12
  else if fn_mod = 51 then 25
  else if fn_mod = 64 then 38
  else if fn_mod = 77 then 51
  else if fn_mod = 90 then 64
  else if fn_mod = 103 then 77
  else if fn_mod = 12 then 90
  else 0

/-- is_meas_complete: does a measurement period end at frame number fn
for this lchan?  Returns rc as a Bool (C: int 0/1). -/
def is_meas_complete (l : Lchan) (fn : Nat) : Bool :=
  match l.pchan with
  | Pchan.tchF =>
    tchf_meas_rep_fn104_by_ts l.tsNr == translate_tch_meas_rep_fn104 (fn % 104)
  | Pchan.tchH =>
    (if l.nr = 0 then tchh0_meas_rep_fn104_by_ts l.tsNr
     else tchh1_meas_rep_fn104_by_ts l.tsNr)
      == translate_tch_meas_rep_fn104 (fn % 104)
  | Pchan.sdcch8 | Pchan.sdcch8Cbch =>
    sdcch8_meas_rep_fn102_by_ss l.nr == fn % 102
  | Pchan.ccchSdcch4 | Pchan.ccchSdcch4Cbch =>
    sdcch4_meas_rep_fn102_by_ss l.nr == fn % 102
  | Pchan.otherPchan => false

/-- modulus_by_lchan: the measurement interval modulus (104 for TCH,
102 for SDCCH, 1 for invalid). -/
def modulus_by_lchan (l : Lchan) : Nat :=
  match l.pchan with
  | Pchan.tchF | Pchan.tchH => 104
  | Pchan.sdcch8 | Pchan.sdcch8Cbch => 102
  | Pchan.ccchSdcch4 | Pchan.ccchSdcch4Cbch => 102
  | Pchan.otherPchan => 1

/-- lchan_new_ul_meas: append one uplink sample to the per-channel buffer.
`cap` is ARRAY_SIZE(lchan->meas.uplink); the array type lives in a header
outside the provided sources, so the capacity is kept as a parameter.
Returns the C return code (-ENOSPC when the buffer is full, else 0)
together with the new measurement state.  The lchan state is only used by
the C code for a log message and does not influence the behaviour. -/
def lchan_new_ul_meas (cap : Nat) (l : Lchan) (s : LchanMeas)
    (ulm : BtsUlMeas) (fn : Nat) : Int × LchanMeas :=
  if cap ≤ s.uplink.length then (-ENOSPC, s)
  else
    let m := if ulm.is_sub then ulm
             else { ulm with is_sub := ts45008_83_is_sub l fn }
    (0, { s with uplink := s.uplink ++ [m], last_fn := fn })

/-- ber10k_to_rxqual: quantize an averaged BER (steps of 0.01%) into the
8-level RXQUAL class of 3GPP TS 45.008 section 8.2.4. -/
def ber10k_to_rxqual (ber10k : Nat) : Nat :=
  if ber10k < 20 then 0
  else if ber10k < 40 then 1
  else if ber10k < 80 then 2
  else if ber10k < 160 then 3
  else if ber10k < 320 then 4
  else if ber10k < 640 then 5
  else if ber10k < 1280 then 6
  else 7

/-- lchan_meas_num_expected: number of measurements expected per period for
this channel configuration; the default case returns the current
num_ul_meas, passed here as an argument. -/
def lchan_meas_num_expected (l : Lchan) (num_ul_meas : Nat) : Nat :=
  match l.pchan with
  | Pchan.tchF => 25
  | Pchan.tchH => if l.tch_mode = TchMode.signMode then 13 else 25
  | Pchan.sdcch8 | Pchan.sdcch8Cbch => 3
  | Pchan.ccchSdcch4 | Pchan.ccchSdcch4Cbch => 3
  | Pchan.otherPchan => num_ul_meas

/-- lchan_meas_sub_num_expected: number of SUB measurements expected per
period (only called for tch_mode different from AMR). -/
def lchan_meas_sub_num_expected (l : Lchan) : Nat :=
  match l.pchan with
  | Pchan.tchF => if l.tch_mode = TchMode.signMode then 25 else 2
  | Pchan.tchH => if l.tch_mode = TchMode.signMode then 13 else 3
  | Pchan.sdcch8 | Pchan.sdcch8Cbch => 3
  | Pchan.ccchSdcch4 | Pchan.ccchSdcch4Cbch => 3
  | Pchan.otherPchan => 0

/-- Modelled from the spec: dbm2rxlev is an external libosmocore helper
(not part of the provided sources) deriving the 0..63 RX level from a dBm
value; the claims only constrain which dBm argument it receives. -/
def dbm2rxlev (dbm : Int) : Int :=
  let rxlev := dbm + 110
  if 63 < rxlev then 63 else if rxlev < 0 then 0 else rxlev

/-- Modelled from the spec: osmo_isqrt32 is the external libosmocore
integer square root used for the timing-offset standard deviation. -/
def osmo_isqrt32 (x : Nat) : Nat := Nat.sqrt x

/-- The local accumulator variables of the summation loop of
lchan_meas_check_compute (measurement computation step 1). -/
structure MeasAcc where
  ber_full_sum : Nat
  irssi_full_sum : Nat
  ci_full_sum : Int
  ber_sub_sum : Nat
  irssi_sub_sum : Nat
  ci_sub_sum : Int
  ta256b_sum : Int
  num_meas_sub : Nat
  num_meas_sub_actual : Nat
  num_meas_sub_subst : Nat
  num_ul_meas_actual : Nat
  num_ul_meas_subst : Nat
deriving Repr, DecidableEq

/-- All accumulators start at zero. -/
def measAccInit : MeasAcc :=
  { ber_full_sum := 0, irssi_full_sum := 0, ci_full_sum := 0
    ber_sub_sum := 0, irssi_sub_sum := 0, ci_sub_sum := 0
    ta256b_sum := 0, num_meas_sub := 0, num_meas_sub_actual := 0
    num_meas_sub_subst := 0, num_ul_meas_actual := 0, num_ul_meas_subst := 0 }

/-- One iteration of the summation loop of lchan_meas_check_compute, at
loop index i.  While samples remain (i < num_ul_meas of the buffer) the
sample uplink[i + excess] is consumed; afterwards the dummy measurement is
used, promoted to SUB when the channel mode is not AMR and the dynamic
condition (num_meas_sub <= i) holds.  The uint32 accumulators wrap
modulo 2^32 as in C; the int32 accumulators cannot overflow for int16
sample fields and are unbounded here. -/
def meas_step (l : Lchan) (uplink : List BtsUlMeas) (excess : Nat)
    (acc : MeasAcc) (i : Nat) : MeasAcc :=
  if i < uplink.length then
    let m := uplink.getD (i + excess) measurement_dummy
    let acc :=
      if m.is_sub then
        { acc with
          irssi_sub_sum := (acc.irssi_sub_sum + m.inv_rssi) % U32
          ci_sub_sum := acc.ci_sub_sum + m.ci_cb
          num_meas_sub_actual := acc.num_meas_sub_actual + 1 }
      else acc
    let acc :=
      { acc with
        irssi_full_sum := (acc.irssi_full_sum + m.inv_rssi) % U32
        ta256b_sum := acc.ta256b_sum + m.ta_offs_256bits
        ci_full_sum := acc.ci_full_sum + m.ci_cb
        num_ul_meas_actual := acc.num_ul_meas_actual + 1 }
    { acc with
      ber_full_sum := (acc.ber_full_sum + m.ber10k) % U32
      num_meas_sub := if m.is_sub then acc.num_meas_sub + 1 else acc.num_meas_sub
      ber_sub_sum := if m.is_sub then (acc.ber_sub_sum + m.ber10k) % U32
                     else acc.ber_sub_sum }
  else
    let promote : Bool :=
      l.tch_mode ≠ TchMode.speechAmr && acc.num_meas_sub ≤ i
    let acc :=
      { acc with
        num_meas_sub_subst := if promote then acc.num_meas_sub_subst + 1
                              else acc.num_meas_sub_subst
        num_ul_meas_subst := acc.num_ul_meas_subst + 1 }
    { acc with
      ber_full_sum := (acc.ber_full_sum + measurement_dummy.ber10k) % U32
      num_meas_sub := if promote then acc.num_meas_sub + 1 else acc.num_meas_sub
      ber_sub_sum := if promote then (acc.ber_sub_sum + measurement_dummy.ber10k) % U32
                     else acc.ber_sub_sum }

/-- The summation loop of lchan_meas_check_compute: num iterations of
meas_step starting from the all-zero accumulators. -/
def measSums (l : Lchan) (uplink : List BtsUlMeas) (excess num : Nat) : MeasAcc :=
  (List.range num).foldl (meas_step l uplink excess) measAccInit

/-- The samples a loop running i = 0..num-1 over uplink[i + excess]
actually visits (total via getD; all indices are in bounds whenever
excess + num = uplink.length, which holds at every call site). -/
def meas_used (uplink : List BtsUlMeas) (excess num : Nat) : List BtsUlMeas :=
  (List.range num).map (fun i => uplink.getD (i + excess) measurement_dummy)

/-- The values of the C locals after measurement computation step 2
(the divisions) of lchan_meas_check_compute. -/
structure MeasAvg where
  ber_full : Nat
  irssi_full : Nat
  ci_full : Int
  ta256b : Int
  ber_sub : Nat
  irssi_sub : Nat
  ci_sub : Int
deriving Repr, DecidableEq

/-- Measurement computation step 2 of lchan_meas_check_compute: divide the
sums, substituting the dummy values / the previous period's stored values
exactly as the C code does.  Signed divisions truncate towards zero
(Int.tdiv), unsigned ones are Nat division. -/
def meas_divide (s : LchanMeas) (num_ul_meas : Nat) (a : MeasAcc) : MeasAvg :=
  { ber_full := a.ber_full_sum / num_ul_meas
    irssi_full :=
      if a.irssi_full_sum = 0 then MEASUREMENT_DUMMY_IRSSI
      else a.irssi_full_sum / a.num_ul_meas_actual
    ta256b :=
      if a.num_ul_meas_actual = 0 then s.ms_toa256
      else Int.tdiv a.ta256b_sum a.num_ul_meas_actual
    ci_full :=
      if a.num_ul_meas_actual = 0 then s.ul_ci_cb_full
      else Int.tdiv a.ci_full_sum a.num_ul_meas_actual
    ber_sub :=
      if a.num_meas_sub = 0 then MEASUREMENT_DUMMY_BER
      else a.ber_sub_sum / a.num_meas_sub
    irssi_sub :=
      if a.num_meas_sub_actual = 0 then MEASUREMENT_DUMMY_IRSSI
      else a.irssi_sub_sum / a.num_meas_sub_actual
    ci_sub :=
      if a.num_meas_sub_actual = 0 then s.ul_ci_cb_sub
      else Int.tdiv a.ci_sub_sum a.num_meas_sub_actual }

/-- The sum of squared deviations of lchan_meas_compute_extended: each
squared difference is a uint32 (wrap modulo 2^32), the running sum a
uint64 (wrap modulo 2^64). -/
def sq_diff_sum64 (mean : Int) (ms : List BtsUlMeas) : Nat :=
  ms.foldl
    (fun acc m =>
      (acc + ((m.ta_offs_256bits - mean).natAbs
               * (m.ta_offs_256bits - mean).natAbs) % U32) % U64)
    0

/-- The number of samples lchan_meas_compute_extended computes over and
the count of skipped oldest excess samples: only actually received
samples enter, capped at the expected count with the oldest excess
skipped. -/
def ext_num_and_excess (l : Lchan) (s : LchanMeas) : Nat × Nat :=
  let num_ul_meas_expect := lchan_meas_num_expected l s.uplink.length
  if num_ul_meas_expect < s.uplink.length
  then (num_ul_meas_expect, s.uplink.length - num_ul_meas_expect)
  else (s.uplink.length, 0)

/-- lchan_meas_compute_extended: no-op on an empty buffer; otherwise
compute toa256 min/max over the used samples, the population variance of
the timing offset around lchan->meas.ms_toa256, and its integer square
root, setting the extended-valid flag.  (The OSMO_ASSERT on the variance
is stated separately as lchan_meas_compute_extended_assert_ok.) -/
def lchan_meas_compute_extended (l : Lchan) (s : LchanMeas) : LchanMeas :=
  if s.uplink.length = 0 then s
  else
    let ne := ext_num_and_excess l s
    let used := meas_used s.uplink ne.2 ne.1
    let sq := sq_diff_sum64 s.ms_toa256 used / ne.1
    let mx := used.foldl (fun mx m =>
      if mx < m.ta_offs_256bits then m.ta_offs_256bits else mx) (-32768)
    let mn := used.foldl (fun mn m =>
      if m.ta_offs_256bits < mn then m.ta_offs_256bits else mn) 32767
    { s with
      ext_toa256_min := mn
      ext_toa256_max := mx
      ext_toa256_std_dev := osmo_isqrt32 sq
      ext_valid := true }

/-- The condition checked by OSMO_ASSERT(sq_diff_sum <= UINT32_MAX) in
lchan_meas_compute_extended, on the same values the function computes
(vacuously true on the empty buffer, where the function returns early). -/
def lchan_meas_compute_extended_assert_ok (l : Lchan) (s : LchanMeas) : Bool :=
  if s.uplink.length = 0 then true
  else
    let ne := ext_num_and_excess l s
    let used := meas_used s.uplink ne.2 ne.1
    sq_diff_sum64 s.ms_toa256 used / ne.1 ≤ U32 - 1

/-- lchan_meas_check_compute: if no measurement period ends at fn, return
(0, unchanged state); otherwise run the summation loop over a full
expected interval (substituting dummies / skipping oldest excess), divide,
store the aggregated result, run the extended computation, reset the
buffer to empty and return 1.  The int16 struct fields ms_toa256 and
ul_ci_cb_full/_sub receive averages of int16 sample values (or are copied
unchanged), so the C narrowing store is value-preserving and is modelled
without wrap. -/
def lchan_meas_check_compute (l : Lchan) (s : LchanMeas) (fn : Nat) :
    Nat × LchanMeas :=
  if is_meas_complete l fn = false then (0, s)
  else
    let num_ul_meas_expect := lchan_meas_num_expected l s.uplink.length
    let num_ul_meas_excess :=
      if num_ul_meas_expect < s.uplink.length
      then s.uplink.length - num_ul_meas_expect else 0
    let num_ul_meas := num_ul_meas_expect
    let a := measSums l s.uplink num_ul_meas_excess num_ul_meas
    let d := meas_divide s num_ul_meas a
    let s1 :=
      { s with
        ul_res :=
          { full := { rx_lev := dbm2rxlev (-(d.irssi_full : Int))
                      rx_qual := ber10k_to_rxqual d.ber_full }
            sub := { rx_lev := dbm2rxlev (-(d.irssi_sub : Int))
                     rx_qual := ber10k_to_rxqual d.ber_sub } }
        ms_toa256 := d.ta256b
        ul_ci_cb_full := d.ci_full
        ul_ci_cb_sub := d.ci_sub
        res_valid := true }
    let s2 := lchan_meas_compute_extended l s1
    (1, { s2 with uplink := [] })

/-- lchan_meas_process_measurement: append the sample, then check for a
period end. -/
def lchan_meas_process_measurement (cap : Nat) (l : Lchan) (s : LchanMeas)
    (ulm : BtsUlMeas) (fn : Nat) : Nat × LchanMeas :=
  lchan_meas_check_compute l (lchan_new_ul_meas cap l s ulm fn).2 fn

/-! ## NM channel/timeslot FSM (nm_chan_fsm) -/

/-- NM operational state (enum abis_nm_op_state). -/
inductive NmOpState where
  | enabled
  | disabled
  | nullState
deriving Repr, DecidableEq

/-- The NM events the embedded handlers distinguish. -/
inductive NmEvent where
  | swAct
  | omlUp
  | rxSetattr
  | rxOpstart
  | opstartAck
  | opstartNack
  | bbtranscEnabled
  | rcarrierEnabled
  | bbtranscDisabled
  | rcarrierDisabled
  | disable
  | shutdownStart
  | shutdownFinish
deriving Repr, DecidableEq

/-- States of nm_chan_fsm. -/
inductive NmChanState where
  | disabledNotinstalled
  | disabledDependency
  | disabledOffline
  | enabledSt
deriving Repr, DecidableEq

/-- The fields of the timeslot's surroundings read by ts_can_be_enabled:
the operational state of ts->trx->bb_transc.mo (baseband transceiver),
of ts->trx->mo (radio carrier), and the BTS internal flag
BTS_INTERNAL_FLAG_NM_RCHANNEL_DEPENDS_RCARRIER. -/
structure NmTs where
  bb_transc_op : NmOpState
  rcarrier_op : NmOpState
  depends_rcarrier : Bool
deriving Repr, DecidableEq

/-- ts_can_be_enabled: the baseband transceiver must be ENABLED, and the
radio carrier as well when the BTS flags radio channels as depending on
the radio carrier. -/
def ts_can_be_enabled (ts : NmTs) : Bool :=
  ts.bb_transc_op = NmOpState.enabled ∧
    (ts.depends_rcarrier = false ∨ ts.rcarrier_op = NmOpState.enabled)

/-- Observable side effects of the embedded channel-FSM handler. -/
inductive NmChanAct where
  | txSwActRep
  | txStateChgRep
deriving Repr, DecidableEq

/-- st_op_disabled_notinstalled: the NM_EV_OML_UP and NM_EV_SW_ACT handler
of state DISABLED_NOTINSTALLED; any other event hits OSMO_ASSERT(0),
modelled as none.  Returns the emitted reports and the next state. -/
def st_op_disabled_notinstalled (ts : NmTs) (ev : NmEvent) :
    Option (List NmChanAct × NmChanState) :=
  match ev with
  | NmEvent.omlUp =>
    some ([NmChanAct.txStateChgRep], NmChanState.disabledNotinstalled)
  | NmEvent.swAct =>
    some ([NmChanAct.txSwActRep],
      if ts_can_be_enabled ts then NmChanState.disabledOffline
      else NmChanState.disabledDependency)
  | _ => none

/-! ## NM site manager FSM (nm_bts_sm_fsm.c) -/

/-- States of nm_bts_sm_fsm. -/
inductive SmState where
  | disabledNotinstalled
  | disabledOffline
  | enabledSt
deriving Repr, DecidableEq

/-- A child managed object of the site manager: the GPRS NSE or the i-th
BTS of site_mgr->bts_list. -/
inductive SmChild where
  | nse
  | bts (i : Nat)
deriving Repr, DecidableEq

/-- Observable actions of the embedded site-manager handlers, in program
order: an OML state-change announcement on the site manager's own MO, a
synchronous event dispatch into a child MO's FSM, or the site manager's
own FSM state change. -/
inductive SmAct where
  | omlShutdownAnnounce
  | childDispatch (c : SmChild) (ev : NmEvent)
  | localStateChg (st : SmState)
deriving Repr, DecidableEq

/-- ev_dispatch_children: dispatch the event to the GPRS-NSE MO first,
then to each child BTS in bts_list order.  The site manager's children are
abstracted by the number of BTSs in the list. -/
def ev_dispatch_children (nBts : Nat) (ev : NmEvent) : List SmAct :=
  SmAct.childDispatch SmChild.nse ev ::
    (List.range nBts).map (fun i => SmAct.childDispatch (SmChild.bts i) ev)

/-- nm_bts_sm_allstate: the all-state event handler of nm_bts_sm_fsm.
SHUTDOWN_START announces shutdown on the own MO and fans the event out to
the children, leaving the FSM state unchanged; SHUTDOWN_FINISH fans the
event out to the children and then transitions the site manager itself to
DISABLED_NOTINSTALLED.  Any other event hits OSMO_ASSERT(false). -/
def nm_bts_sm_allstate (nBts : Nat) (st : SmState) (ev : NmEvent) :
    Option (List SmAct × SmState) :=
  match ev with
  | NmEvent.shutdownStart =>
    some (SmAct.omlShutdownAnnounce :: ev_dispatch_children nBts ev, st)
  | NmEvent.shutdownFinish =>
    some (ev_dispatch_children nBts ev ++
      [SmAct.localStateChg SmState.disabledNotinstalled],
      SmState.disabledNotinstalled)
  | _ => none

/-! ## Abis link FSM (abis.c) -/

/-- States of abis_link_fsm. -/
inductive AbisState where
  | connecting
  | connected
  | failed
deriving Repr, DecidableEq

/-- Events of abis_link_fsm. -/
inductive AbisEvent where
  | signLinkDown
  | vtyRmAddr
deriving Repr, DecidableEq

/-- The signalling links of the BTS the CONNECTED handler inspects:
whether bts->oml_link is present and, per TRX of bts->trx_list in order,
whether trx->rsl_link is present. -/
structure AbisBts where
  oml_link : Bool
  rsl_links : List Bool
deriving Repr, DecidableEq

/-- Observable actions of the embedded Abis link FSM. -/
inductive AbisAct where
  | destroyOmlLink
  | destroyRslLink (trxIdx : Nat)
  | btsModelAbisClose
deriving Repr, DecidableEq

/-- abis_link_connected: the ABIS_LINK_EV_SIGN_LINK_DOWN handler of state
CONNECTED.  It destroys the OML signalling link (if any) and then every
per-TRX RSL signalling link, remembers whether any such link existed
(oml_rsl_was_connected) and transitions to FAILED in that case, else back
to CONNECTING.  Returns the destruction actions in program order, the new
link state and the next FSM state. -/
def abis_link_connected (bts : AbisBts) : List AbisAct × AbisBts × AbisState :=
  let omlActs : List AbisAct :=
    if bts.oml_link then [AbisAct.destroyOmlLink] else []
  let rslActs : List AbisAct :=
    ((List.range bts.rsl_links.length).filter
        (fun i => bts.rsl_links.getD i false)).map AbisAct.destroyRslLink
  let oml_rsl_was_connected := bts.oml_link || bts.rsl_links.any id
  (omlActs ++ rslActs,
   { oml_link := false, rsl_links := bts.rsl_links.map (fun _ => false) },
   if oml_rsl_was_connected then AbisState.failed else AbisState.connecting)

/-- abis_link_failed_onenter: entering FAILED initiates orderly BTS
process shutdown via bts_model_abis_close. -/
def abis_link_failed_onenter : List AbisAct := [AbisAct.btsModelAbisClose]

/-- The in_event_mask of the abis_link_fsm state table: only CONNECTED
accepts ABIS_LINK_EV_SIGN_LINK_DOWN; FAILED accepts nothing (it is
terminal, no retry). -/
def abis_link_fsm_in_event_mask (st : AbisState) : List AbisEvent :=
  match st with
  | AbisState.connected => [AbisEvent.signLinkDown]
  | _ => []

/-- The out_state_mask of the abis_link_fsm state table: FAILED has no
outgoing transitions. -/
def abis_link_fsm_out_state_mask (st : AbisState) : List AbisState :=
  match st with
  | AbisState.connecting =>
    [AbisState.connecting, AbisState.connected, AbisState.failed]
  | AbisState.connected => [AbisState.connecting, AbisState.failed]
  | AbisState.failed => []

/-! ## Concrete example inputs used by counterexamples and witnesses -/

/-- A TCH/F lchan on timeslot 0 in speech V1 mode (its measurement period
ends at fn % 104 = 12). -/
def exLchanTchF : Lchan :=
  { pchan := Pchan.tchF, tsNr := 0, nr := 0, lchanType := LchanType.tchF
    tch_mode := TchMode.speechV1, rsl_cmode_data := false
    lchanState := LchanState.active }

/-- An all-zero measurement state with an empty sample buffer. -/
def exMeasEmpty : LchanMeas :=
  { uplink := [], last_fn := 0, ms_toa256 := 0, ul_ci_cb_full := 0
    ul_ci_cb_sub := 0, ul_res := ⟨⟨0, 0⟩, ⟨0, 0⟩⟩, ext_toa256_min := 0
    ext_toa256_max := 0, ext_toa256_std_dev := 0, res_valid := false
    ext_valid := false }

/-- A good-quality sample: zero BER, RSSI -50 dBm. -/
def exGoodSample : BtsUlMeas :=
  { ber10k := 0, ta_offs_256bits := 10, ci_cb := 100, is_sub := false
    inv_rssi := 50 }

/-- A sample whose inverted RSSI is 0 (0 dBm). -/
def exZeroRssiSample : BtsUlMeas :=
  { ber10k := 0, ta_offs_256bits := 0, ci_cb := 0, is_sub := true
    inv_rssi := 0 }

/-- A full period of 25 good samples. -/
def exMeasGood : LchanMeas :=
  { exMeasEmpty with uplink := List.replicate 25 exGoodSample }

/-- A full period of 25 zero-RSSI samples. -/
def exMeasZeroRssi : LchanMeas :=
  { exMeasEmpty with uplink := List.replicate 25 exZeroRssiSample }

/-! ## Claim C2 — channel FSM software-activation routing -/

/-- Claim C2, counterexample: the claim as stated makes the transition
target depend on the radio carrier unconditionally and on the baseband
transceiver only under the dependency flag.  With the baseband transceiver
ENABLED, the radio carrier DISABLED, and the dependency flag clear, the
claim predicts DISABLED_DEPENDENCY ("when the carrier is DISABLED it
transitions to DISABLED_DEPENDENCY"), but the code transitions to
DISABLED_OFFLINE: ts_can_be_enabled checks the baseband transceiver
unconditionally and the radio carrier only under the flag. -/
theorem c2_counterexample :
    st_op_disabled_notinstalled
        ⟨NmOpState.enabled, NmOpState.disabled, false⟩ NmEvent.swAct =
      some ([NmChanAct.txSwActRep], NmChanState.disabledOffline) ∧
    (⟨NmOpState.enabled, NmOpState.disabled, false⟩ : NmTs).rcarrier_op =
      NmOpState.disabled ∧
    NmChanState.disabledOffline ≠ NmChanState.disabledDependency := by
  decide

/-- Claim C2 (amended): dispatching NM_EV_SW_ACT in DISABLED_NOTINSTALLED
transmits a software-activated report, and transitions to DISABLED_OFFLINE
exactly when the enabling precondition holds — the owning carrier's
BASEBAND TRANSCEIVER is operationally ENABLED and, if the BTS model flags
radio channels as depending on the radio carrier, the radio carrier is
also ENABLED — and to DISABLED_DEPENDENCY otherwise. -/
theorem c2_sw_act_routing (ts : NmTs) :
    ∃ acts st, st_op_disabled_notinstalled ts NmEvent.swAct = some (acts, st) ∧
      acts = [NmChanAct.txSwActRep] ∧
      (st = NmChanState.disabledOffline ↔
        (ts.bb_transc_op = NmOpState.enabled ∧
          (ts.depends_rcarrier = true → ts.rcarrier_op = NmOpState.enabled))) ∧
      (st = NmChanState.disabledDependency ↔
        ¬(ts.bb_transc_op = NmOpState.enabled ∧
          (ts.depends_rcarrier = true → ts.rcarrier_op = NmOpState.enabled))) := by
  obtain ⟨bb, rc, dep⟩ := ts
  refine ⟨_, _, rfl, rfl, ?_, ?_⟩ <;>
    cases bb <;> cases rc <;> cases dep <;>
      simp [ts_can_be_enabled]

/-! ## Claim C7 — Abis link failure policy -/

/-- An index is among the destroyed-RSL indices exactly when that TRX had
a connected RSL link (out-of-range indices read the default false). -/
lemma mem_rsl_filter (ls : List Bool) (i : Nat) :
    i ∈ (List.range ls.length).filter (fun j => ls.getD j false) ↔
      ls.getD i false = true := by
  rw [List.mem_filter, List.mem_range]
  constructor
  · rintro ⟨_, h2⟩
    exact h2
  · intro h2
    refine ⟨?_, h2⟩
    by_contra hl
    rw [List.getD_eq_default _ _ (by omega)] at h2
    cases h2

/-- Claim C7: a link-down signal in CONNECTED destroys the OML signalling
link and every per-TRX RSL signalling link; the FSM transitions to FAILED
if and only if at least one such signalling link existed, and back to
CONNECTING otherwise; entering FAILED triggers bts_model_abis_close, and
FAILED is terminal (empty in-event and out-state masks: no retry). -/
theorem c7_link_down_policy (bts : AbisBts) :
    ((abis_link_connected bts).2.1.oml_link = false) ∧
    (∀ b ∈ (abis_link_connected bts).2.1.rsl_links, b = false) ∧
    ((abis_link_connected bts).2.1.rsl_links.length = bts.rsl_links.length) ∧
    ((abis_link_connected bts).2.2 = AbisState.failed ↔
      (bts.oml_link = true ∨ bts.rsl_links.any id = true)) ∧
    ((abis_link_connected bts).2.2 = AbisState.connecting ↔
      ¬(bts.oml_link = true ∨ bts.rsl_links.any id = true)) ∧
    (AbisAct.destroyOmlLink ∈ (abis_link_connected bts).1 ↔
      bts.oml_link = true) ∧
    (∀ i, AbisAct.destroyRslLink i ∈ (abis_link_connected bts).1 ↔
      bts.rsl_links.getD i false = true) ∧
    abis_link_failed_onenter = [AbisAct.btsModelAbisClose] ∧
    abis_link_fsm_in_event_mask AbisState.failed = [] ∧
    abis_link_fsm_out_state_mask AbisState.failed = [] := by
  refine ⟨rfl, ?_, ?_, ?_, ?_, ?_, ?_, rfl, rfl, rfl⟩
  · intro b hb
    simp only [abis_link_connected, List.mem_map] at hb
    obtain ⟨x, _, hxb⟩ := hb
    exact hxb.symm
  · simp [abis_link_connected]
  · simp only [abis_link_connected]
    cases h : (bts.oml_link || bts.rsl_links.any id) <;>
      simp_all [Bool.or_eq_true]
  · simp only [abis_link_connected]
    cases h : (bts.oml_link || bts.rsl_links.any id) <;>
      simp_all [Bool.or_eq_true]
  · cases h : bts.oml_link <;> simp [abis_link_connected, h]
  · intro i
    simp only [abis_link_connected, List.mem_append, List.mem_map]
    constructor
    · rintro (hmem | ⟨j, hj, hinj⟩)
      · exfalso
        cases h : bts.oml_link <;> rw [h] at hmem <;> simp at hmem
      · cases hinj
        exact (mem_rsl_filter bts.rsl_links i).mp hj
    · intro h2
      exact Or.inr ⟨i, (mem_rsl_filter bts.rsl_links i).mpr h2, rfl⟩

/-! ## Claim C8 — site manager shutdown fan-out ordering -/

/-- Claim C8: SHUTDOWN_START is dispatched to every child MO — the
GPRS-NSE first, then each child BTS in list order — without changing the
site manager's own FSM state, and SHUTDOWN_FINISH is dispatched to every
child in the same order before the site manager itself transitions to
DISABLED_NOTINSTALLED; the broadcast is strictly parent-to-children (the
emitted actions are exactly the child dispatches plus the parent's own
announcement/transition). -/
theorem c8_shutdown_fanout (nBts : Nat) (st : SmState) :
    nm_bts_sm_allstate nBts st NmEvent.shutdownStart =
      some (SmAct.omlShutdownAnnounce ::
        ev_dispatch_children nBts NmEvent.shutdownStart, st) ∧
    nm_bts_sm_allstate nBts st NmEvent.shutdownFinish =
      some (ev_dispatch_children nBts NmEvent.shutdownFinish ++
        [SmAct.localStateChg SmState.disabledNotinstalled],
        SmState.disabledNotinstalled) ∧
    (∀ ev, ev_dispatch_children nBts ev =
      SmAct.childDispatch SmChild.nse ev ::
        (List.range nBts).map (fun i => SmAct.childDispatch (SmChild.bts i) ev)) ∧
    (∀ ev, (ev_dispatch_children nBts ev).length = nBts + 1) ∧
    (∀ ev i, i < nBts →
      (ev_dispatch_children nBts ev).getD (i + 1) SmAct.omlShutdownAnnounce =
        SmAct.childDispatch (SmChild.bts i) ev) := by
  refine ⟨rfl, rfl, fun ev => rfl, fun ev => by simp [ev_dispatch_children],
    fun ev i hi => ?_⟩
  simp [ev_dispatch_children, List.getD, List.getElem?_map,
    List.getElem?_range, hi]

/-! ## Claim C6 — buffer-capacity error handling -/

/-- Claim C6: when the per-channel measurement buffer is already at
capacity, lchan_new_ul_meas returns -ENOSPC and leaves the measurement
state (buffer, count, last_fn — the whole LchanMeas record) unchanged,
and a subsequent period computation behaves exactly as if the dropped
sample had never been offered. -/
theorem c6_full_buffer_enospc (cap : Nat) (l : Lchan) (s : LchanMeas)
    (ulm : BtsUlMeas) (fn : Nat) (h : cap ≤ s.uplink.length) :
    lchan_new_ul_meas cap l s ulm fn = (-ENOSPC, s) ∧
    ∀ fn2, lchan_meas_check_compute l (lchan_new_ul_meas cap l s ulm fn).2 fn2 =
      lchan_meas_check_compute l s fn2 := by
  unfold lchan_new_ul_meas
  rw [if_pos h]
  exact ⟨rfl, fun _ => rfl⟩

/-- Witness for claim C6 at a concrete full buffer of capacity 2. -/
theorem c6_full_buffer_enospc_witness :
    (2 : Nat) ≤ (List.replicate 2 exGoodSample).length ∧
    lchan_new_ul_meas 2 exLchanTchF
        { exMeasEmpty with uplink := List.replicate 2 exGoodSample }
        exGoodSample 5 =
      (-ENOSPC, { exMeasEmpty with uplink := List.replicate 2 exGoodSample }) :=
  ⟨by decide,
   (c6_full_buffer_enospc 2 exLchanTchF
      { exMeasEmpty with uplink := List.replicate 2 exGoodSample }
      exGoodSample 5 (by decide)).1⟩

/-! ## Claim C10 — sample acceptance does not depend on the lchan state -/

/-- Claim C10: lchan_new_ul_meas behaves identically for any lchan state
other than LCHAN_S_ACTIVE as for an active channel (the state is only
logged): if there is room it appends the classified sample and updates
last_fn exactly as for an active channel, and the only condition under
which it rejects a sample is a full buffer. -/
theorem c10_new_ul_meas_state_independent (cap : Nat) (l : Lchan)
    (s : LchanMeas) (ulm : BtsUlMeas) (fn : Nat)
    (h : l.lchanState ≠ LchanState.active) :
    lchan_new_ul_meas cap l s ulm fn =
      lchan_new_ul_meas cap { l with lchanState := LchanState.active } s ulm fn ∧
    (s.uplink.length < cap →
      lchan_new_ul_meas cap l s ulm fn =
        (0, { s with
              uplink := s.uplink ++
                [if ulm.is_sub then ulm
                 else { ulm with is_sub := ts45008_83_is_sub l fn }]
              last_fn := fn })) ∧
    ((lchan_new_ul_meas cap l s ulm fn).1 ≠ 0 ↔ cap ≤ s.uplink.length) := by
  refine ⟨rfl, fun hlt => ?_, ?_⟩
  · unfold lchan_new_ul_meas
    rw [if_neg (by omega)]
  · unfold lchan_new_ul_meas
    by_cases hc : cap ≤ s.uplink.length
    · rw [if_pos hc]
      simpa [ENOSPC] using hc
    · rw [if_neg hc]
      simpa using hc

/-- Witness for claim C10 at a concrete inactive channel with room in the
buffer. -/
theorem c10_new_ul_meas_state_independent_witness :
    ({ exLchanTchF with lchanState := LchanState.broken }.lchanState ≠
        LchanState.active) ∧
    lchan_new_ul_meas 25 { exLchanTchF with lchanState := LchanState.broken }
        exMeasEmpty exGoodSample 7 =
      lchan_new_ul_meas 25 exLchanTchF exMeasEmpty exGoodSample 7 :=
  ⟨by decide,
   (c10_new_ul_meas_state_independent 25
      { exLchanTchF with lchanState := LchanState.broken }
      exMeasEmpty exGoodSample 7 (by decide)).1⟩

/-! ## Claim C3 — uniqueness of the period-end frame -/

/-- The supported channel configurations of claim C3: TCH/F per timeslot
0-7, TCH/H sub-channel 0/1 per timeslot 0-7, SDCCH/8 per subslot 0-7,
SDCCH/4 per subslot 0-3. -/
def supported_cfg (l : Lchan) : Prop :=
  (l.pchan = Pchan.tchF ∧ l.tsNr < 8) ∨
  (l.pchan = Pchan.tchH ∧ l.tsNr < 8 ∧ l.nr < 2) ∨
  ((l.pchan = Pchan.sdcch8 ∨ l.pchan = Pchan.sdcch8Cbch) ∧ l.nr < 8) ∨
  ((l.pchan = Pchan.ccchSdcch4 ∨ l.pchan = Pchan.ccchSdcch4Cbch) ∧ l.nr < 4)

/-- The unique residue (mod 104) at which a TCH/F period on timeslot ts
completes: the preimage of tchf_meas_rep_fn104_by_ts under the SACCH
frame translation. -/
def tchf_residue : Nat → Nat
  | 0 => 12
  | 1 => 25
  | 2 => 38
  | 3 => 51
  | 4 => 64
  | 5 => 77
  | 6 => 90
  | 7 => 103
  | _ => 0

/-- The unique residue (mod 104) for TCH/H sub-channel 0 on timeslot ts. -/
def tchh0_residue : Nat → Nat
  | 0 => 12
  | 1 => 12
  | 2 => 38
  | 3 => 38
  | 4 => 64
  | 5 => 64
  | 6 => 90
  | 7 => 90
  | _ => 0

/-- The unique residue (mod 104) for TCH/H sub-channel 1 on timeslot ts. -/
def tchh1_residue : Nat → Nat
  | 0 => 25
  | 1 => 25
  | 2 => 51
  | 3 => 51
  | 4 => 77
  | 5 => 77
  | 6 => 103
  | 7 => 103
  | _ => 0

/-- The residue at which the measurement period of a supported lchan
completes. -/
def meas_residue (l : Lchan) : Nat :=
  match l.pchan with
  | Pchan.tchF => tchf_residue l.tsNr
  | Pchan.tchH =>
    if l.nr = 0 then tchh0_residue l.tsNr else tchh1_residue l.tsNr
  | Pchan.sdcch8 | Pchan.sdcch8Cbch => sdcch8_meas_rep_fn102_by_ss l.nr
  | Pchan.ccchSdcch4 | Pchan.ccchSdcch4Cbch => sdcch4_meas_rep_fn102_by_ss l.nr
  | Pchan.otherPchan => 0

lemma tchf_key : ∀ ts, ts < 8 → ∀ r, r < 104 →
    ((tchf_meas_rep_fn104_by_ts ts == translate_tch_meas_rep_fn104 r) = true ↔
      r = tchf_residue ts) := by decide

lemma tchh0_key : ∀ ts, ts < 8 → ∀ r, r < 104 →
    ((tchh0_meas_rep_fn104_by_ts ts == translate_tch_meas_rep_fn104 r) = true ↔
      r = tchh0_residue ts) := by decide

lemma tchh1_key : ∀ ts, ts < 8 → ∀ r, r < 104 →
    ((tchh1_meas_rep_fn104_by_ts ts == translate_tch_meas_rep_fn104 r) = true ↔
      r = tchh1_residue ts) := by decide

lemma tchf_residue_lt : ∀ ts, ts < 8 → tchf_residue ts < 104 := by decide

lemma tchh0_residue_lt : ∀ ts, ts < 8 → tchh0_residue ts < 104 := by decide

lemma tchh1_residue_lt : ∀ ts, ts < 8 → tchh1_residue ts < 104 := by decide

lemma sdcch8_tbl_lt : ∀ ss, ss < 8 → sdcch8_meas_rep_fn102_by_ss ss < 102 := by
  decide

lemma sdcch4_tbl_lt : ∀ ss, ss < 4 → sdcch4_meas_rep_fn102_by_ss ss < 102 := by
  decide

/-- On every supported configuration, is_meas_complete holds exactly on
the frame numbers congruent to meas_residue modulo the period length. -/
lemma meas_complete_char (l : Lchan) (h : supported_cfg l) :
    meas_residue l < modulus_by_lchan l ∧
    ∀ fn, (is_meas_complete l fn = true ↔
      fn % modulus_by_lchan l = meas_residue l) := by
  rcases h with ⟨hp, hts⟩ | ⟨hp, hts, hnr⟩ | ⟨hp, hnr⟩ | ⟨hp, hnr⟩
  · refine ⟨?_, fun fn => ?_⟩
    · simp only [meas_residue, modulus_by_lchan, hp]
      exact tchf_residue_lt l.tsNr hts
    · simp only [is_meas_complete, meas_residue, modulus_by_lchan, hp]
      exact tchf_key l.tsNr hts (fn % 104) (Nat.mod_lt fn (by norm_num))
  · by_cases hn0 : l.nr = 0
    · refine ⟨?_, fun fn => ?_⟩
      · simp only [meas_residue, modulus_by_lchan, hp, hn0, if_true]
        exact tchh0_residue_lt l.tsNr hts
      · simp only [is_meas_complete, meas_residue, modulus_by_lchan, hp, hn0,
          if_true]
        exact tchh0_key l.tsNr hts (fn % 104) (Nat.mod_lt fn (by norm_num))
    · refine ⟨?_, fun fn => ?_⟩
      · simp only [meas_residue, modulus_by_lchan, hp, hn0, if_false]
        exact tchh1_residue_lt l.tsNr hts
      · simp only [is_meas_complete, meas_residue, modulus_by_lchan, hp, hn0,
          if_false]
        exact tchh1_key l.tsNr hts (fn % 104) (Nat.mod_lt fn (by norm_num))
  · rcases hp with hp | hp <;>
    · refine ⟨?_, fun fn => ?_⟩
      · simp only [meas_residue, modulus_by_lchan, hp]
        exact sdcch8_tbl_lt l.nr hnr
      · simp only [is_meas_complete, meas_residue, modulus_by_lchan, hp,
          beq_iff_eq]
        exact eq_comm
  · rcases hp with hp | hp <;>
    · refine ⟨?_, fun fn => ?_⟩
      · simp only [meas_residue, modulus_by_lchan, hp]
        exact sdcch4_tbl_lt l.nr hnr
      · simp only [is_meas_complete, meas_residue, modulus_by_lchan, hp,
          beq_iff_eq]
        exact eq_comm

/-- Claim C3: for every supported channel configuration there is exactly
one residue v below the period length (104 for TCH, 102 for SDCCH) such
that is_meas_complete returns true precisely on the frame numbers with
fn mod period = v. -/
theorem c3_unique_period_end (l : Lchan) (h : supported_cfg l) :
    ((l.pchan = Pchan.tchF ∨ l.pchan = Pchan.tchH) →
      modulus_by_lchan l = 104) ∧
    ((l.pchan ≠ Pchan.tchF ∧ l.pchan ≠ Pchan.tchH) →
      modulus_by_lchan l = 102) ∧
    ∃! v, v < modulus_by_lchan l ∧
      ∀ fn, (is_meas_complete l fn = true ↔ fn % modulus_by_lchan l = v) := by
  obtain ⟨hv, hchar⟩ := meas_complete_char l h
  refine ⟨?_, ?_, meas_residue l, ⟨hv, hchar⟩, ?_⟩
  · rintro (hp | hp) <;> simp [modulus_by_lchan, hp]
  · rintro ⟨h1, h2⟩
    rcases h with ⟨hp, _⟩ | ⟨hp, _⟩ | ⟨hp | hp, _⟩ | ⟨hp | hp, _⟩ <;>
      first
        | exact absurd hp h1
        | exact absurd hp h2
        | simp [modulus_by_lchan, hp]
  · rintro u ⟨hu, hufn⟩
    have hcomp : is_meas_complete l (meas_residue l) = true :=
      (hchar (meas_residue l)).mpr (Nat.mod_eq_of_lt hv)
    have := (hufn (meas_residue l)).mp hcomp
    rw [Nat.mod_eq_of_lt hv] at this
    exact this.symm

/-- Witness for claim C3 at the TCH/F timeslot-0 configuration. -/
theorem c3_unique_period_end_witness :
    supported_cfg exLchanTchF ∧
    ∃! v, v < modulus_by_lchan exLchanTchF ∧
      ∀ fn, (is_meas_complete exLchanTchF fn = true ↔
        fn % modulus_by_lchan exLchanTchF = v) :=
  ⟨Or.inl ⟨rfl, by decide⟩,
   (c3_unique_period_end exLchanTchF (Or.inl ⟨rfl, by decide⟩)).2.2⟩

/-! ## Characterization of the summation loop -/

/-- The samples the summation loop consumes from the buffer: the suffix
after skipping `excess` old samples, capped at `n`. -/
def recent_samples (up : List BtsUlMeas) (excess n : Nat) : List BtsUlMeas :=
  (up.drop excess).take n

/-- A real-sample iteration of the summation loop, written as one record
update. -/
lemma meas_step_real (l : Lchan) (up : List BtsUlMeas) (excess : Nat)
    (acc : MeasAcc) (i : Nat) (hn : i < up.length) :
    meas_step l up excess acc i =
      { ber_full_sum :=
          (acc.ber_full_sum + (up.getD (i + excess) measurement_dummy).ber10k) % U32
        irssi_full_sum :=
          (acc.irssi_full_sum + (up.getD (i + excess) measurement_dummy).inv_rssi) % U32
        ci_full_sum := acc.ci_full_sum + (up.getD (i + excess) measurement_dummy).ci_cb
        ber_sub_sum :=
          if (up.getD (i + excess) measurement_dummy).is_sub then
            (acc.ber_sub_sum + (up.getD (i + excess) measurement_dummy).ber10k) % U32
          else acc.ber_sub_sum
        irssi_sub_sum :=
          if (up.getD (i + excess) measurement_dummy).is_sub then
            (acc.irssi_sub_sum + (up.getD (i + excess) measurement_dummy).inv_rssi) % U32
          else acc.irssi_sub_sum
        ci_sub_sum :=
          if (up.getD (i + excess) measurement_dummy).is_sub then
            acc.ci_sub_sum + (up.getD (i + excess) measurement_dummy).ci_cb
          else acc.ci_sub_sum
        ta256b_sum := acc.ta256b_sum + (up.getD (i + excess) measurement_dummy).ta_offs_256bits
        num_meas_sub :=
          if (up.getD (i + excess) measurement_dummy).is_sub then
            acc.num_meas_sub + 1
          else acc.num_meas_sub
        num_meas_sub_actual :=
          if (up.getD (i + excess) measurement_dummy).is_sub then
            acc.num_meas_sub_actual + 1
          else acc.num_meas_sub_actual
        num_meas_sub_subst := acc.num_meas_sub_subst
        num_ul_meas_actual := acc.num_ul_meas_actual + 1
        num_ul_meas_subst := acc.num_ul_meas_subst } := by
  simp only [meas_step, if_pos hn]
  generalize up.getD (i + excess) measurement_dummy = m
  cases hms : m.is_sub <;> simp [hms]

/-- A dummy iteration of the summation loop, written as one record
update. -/
lemma meas_step_dummy (l : Lchan) (up : List BtsUlMeas) (excess : Nat)
    (acc : MeasAcc) (i : Nat) (hn : ¬ i < up.length) :
    meas_step l up excess acc i =
      { acc with
        ber_full_sum := (acc.ber_full_sum + MEASUREMENT_DUMMY_BER) % U32
        ber_sub_sum :=
          if l.tch_mode ≠ TchMode.speechAmr ∧ acc.num_meas_sub ≤ i then
            (acc.ber_sub_sum + MEASUREMENT_DUMMY_BER) % U32
          else acc.ber_sub_sum
        num_meas_sub :=
          if l.tch_mode ≠ TchMode.speechAmr ∧ acc.num_meas_sub ≤ i then
            acc.num_meas_sub + 1
          else acc.num_meas_sub
        num_meas_sub_subst :=
          if l.tch_mode ≠ TchMode.speechAmr ∧ acc.num_meas_sub ≤ i then
            acc.num_meas_sub_subst + 1
          else acc.num_meas_sub_subst
        num_ul_meas_subst := acc.num_ul_meas_subst + 1 } := by
  by_cases hp : l.tch_mode ≠ TchMode.speechAmr ∧ acc.num_meas_sub ≤ i <;>
    simp [meas_step, hn, hp, measurement_dummy]

/-- Unfolding one iteration off the back of the summation loop. -/
lemma measSums_succ (l : Lchan) (up : List BtsUlMeas) (excess n : Nat) :
    measSums l up excess (n + 1) =
      meas_step l up excess (measSums l up excess n) n := by
  simp [measSums, List.range_succ]

/-- What the summation loop of lchan_meas_check_compute computes, for the
index patterns reachable from its call sites (either the skipped excess is
zero, or skipped excess plus iteration count stay within the buffer):
the FULL BER sum ranges over the consumed real samples plus one dummy
(100% BER) per missing sample; the RSSI / C/I / timing-offset sums and the
actual-sample counters range over exactly the consumed real samples, with
no dummy contribution. -/
lemma measSums_spec (l : Lchan) (up : List BtsUlMeas) (excess : Nat) :
    ∀ n, (excess + n ≤ up.length ∨ excess = 0) →
    (measSums l up excess n).ber_full_sum =
      (((recent_samples up excess n).map BtsUlMeas.ber10k).sum +
        (n - (recent_samples up excess n).length) * MEASUREMENT_DUMMY_BER) % U32 ∧
    (measSums l up excess n).irssi_full_sum =
      ((recent_samples up excess n).map BtsUlMeas.inv_rssi).sum % U32 ∧
    (measSums l up excess n).ci_full_sum =
      ((recent_samples up excess n).map BtsUlMeas.ci_cb).sum ∧
    (measSums l up excess n).ta256b_sum =
      ((recent_samples up excess n).map BtsUlMeas.ta_offs_256bits).sum ∧
    (measSums l up excess n).num_ul_meas_actual =
      (recent_samples up excess n).length ∧
    (measSums l up excess n).num_ul_meas_subst =
      n - (recent_samples up excess n).length ∧
    (measSums l up excess n).irssi_sub_sum =
      (((recent_samples up excess n).filter BtsUlMeas.is_sub).map
        BtsUlMeas.inv_rssi).sum % U32 ∧
    (measSums l up excess n).ci_sub_sum =
      (((recent_samples up excess n).filter BtsUlMeas.is_sub).map
        BtsUlMeas.ci_cb).sum ∧
    (measSums l up excess n).num_meas_sub_actual =
      ((recent_samples up excess n).filter BtsUlMeas.is_sub).length := by
  intro n
  induction n with
  | zero =>
    intro _
    simp [measSums, recent_samples, measAccInit]
  | succ n ih =>
    intro hH
    have hH2 : excess + n ≤ up.length ∨ excess = 0 := by
      rcases hH with h | h
      · exact Or.inl (by omega)
      · exact Or.inr h
    obtain ⟨ih1, ih2, ih3, ih4, ih5, ih6, ih7, ih8, ih9⟩ := ih hH2
    rw [measSums_succ]
    by_cases hn : n < up.length
    · have hfit : n < (up.drop excess).length := by
        rw [List.length_drop]
        rcases hH with h | h <;> omega
      have hidx : n + excess < up.length := by
        rw [List.length_drop] at hfit
        omega
      have hget : up.getD (n + excess) measurement_dummy = (up.drop excess)[n] := by
        rw [List.getD_eq_getElem?_getD, List.getElem?_eq_getElem hidx,
          Option.getD_some, List.getElem_drop]
        congr 1
        omega
      have hA : recent_samples up excess (n + 1) =
          recent_samples up excess n ++ [up.getD (n + excess) measurement_dummy] := by
        unfold recent_samples
        rw [List.take_succ, List.getElem?_eq_getElem hfit, hget]
        rfl
      have hAlen : (recent_samples up excess (n + 1)).length =
          (recent_samples up excess n).length + 1 := by
        rw [hA, List.length_append, List.length_singleton]
      have hAlen2 : (recent_samples up excess n).length = n := by
        unfold recent_samples
        rw [List.length_take, List.length_drop]
        rcases hH with h | h <;> omega
      rw [meas_step_real l up excess _ n hn]
      cases hms : (up.getD (n + excess) measurement_dummy).is_sub <;>
        refine ⟨?_, ?_, ?_, ?_, ?_, ?_, ?_, ?_, ?_⟩ <;>
        simp only [hms, if_true, if_false, Bool.false_eq_true, ite_false,
          ite_true, hA, hAlen, List.map_append, List.sum_append,
          List.filter_append, ih1, ih2, ih3, ih4, ih5, ih6, ih7, ih8, ih9,
          List.map_cons, List.map_nil, List.sum_cons, List.sum_nil,
          List.filter_cons, List.filter_nil, List.length_append,
          List.length_singleton, List.length_nil, List.length_cons,
          Nat.mod_add_mod, hAlen2, Nat.sub_self,
          Nat.mul_zero, Nat.zero_mul, Nat.add_zero, Nat.zero_add,
          mul_zero, zero_mul, add_zero, zero_add] <;>
        first
          | omega
          | ring
          | (congr 1 <;> omega)
          | (congr 1 <;> (simp; done))
          | (simp [hms]; done)
          | (simp; done)
    · have hexc : excess = 0 := by
        rcases hH with h | h
        · omega
        · exact h
      subst hexc
      have hlen : up.length ≤ n := Nat.le_of_not_lt hn
      have hA1 : recent_samples up 0 (n + 1) = up := by
        unfold recent_samples
        rw [List.drop_zero, List.take_of_length_le (by omega)]
      have hA0 : recent_samples up 0 n = up := by
        unfold recent_samples
        rw [List.drop_zero, List.take_of_length_le (by omega)]
      rw [meas_step_dummy l up 0 _ n hn]
      rw [hA1] at *
      rw [hA0] at ih1 ih2 ih3 ih4 ih5 ih6 ih7 ih8 ih9
      refine ⟨?_, ih2, ih3, ih4, ih5, ?_, ih7, ih8, ih9⟩
      · simp only [ih1, Nat.mod_add_mod]
        congr 1
        have : up.length ≤ n := hlen
        have h10 : n + 1 - up.length = (n - up.length) + 1 := by omega
        rw [h10]
        ring
      · simp only [ih6]
        omega

/-- A period can only complete on a supported physical channel, where the
expected per-period sample count is positive and at most 25. -/
lemma meas_expected_bounds (l : Lchan) (fn k : Nat)
    (hc : is_meas_complete l fn = true) :
    0 < lchan_meas_num_expected l k ∧ lchan_meas_num_expected l k ≤ 25 := by
  cases hpc : l.pchan <;>
    simp only [lchan_meas_num_expected, hpc] <;>
    first
      | (norm_num; done)
      | (constructor <;> split <;> norm_num)
      | (exfalso; simp only [is_meas_complete, hpc] at hc
         exact Bool.false_ne_true hc)

/-- When a period completes, lchan_meas_check_compute reports completion
and resets the buffer to empty. -/
lemma check_compute_completes (l : Lchan) (s : LchanMeas) (fn : Nat)
    (hc : is_meas_complete l fn = true) :
    (lchan_meas_check_compute l s fn).1 = 1 ∧
    (lchan_meas_check_compute l s fn).2.uplink = [] := by
  simp [lchan_meas_check_compute, hc]

/-- The extended computation never touches the aggregated FULL/SUB
result. -/
lemma compute_extended_preserves_ul_res (l : Lchan) (s : LchanMeas) :
    (lchan_meas_compute_extended l s).ul_res = s.ul_res := by
  unfold lchan_meas_compute_extended
  split <;> rfl

/-- The FULL result stored by a completing lchan_meas_check_compute, in
terms of the summation and division helpers. -/
lemma check_compute_ul_res_full (l : Lchan) (s : LchanMeas) (fn : Nat)
    (hc : is_meas_complete l fn = true) :
    (lchan_meas_check_compute l s fn).2.ul_res.full =
      { rx_lev := dbm2rxlev (-(((meas_divide s
            (lchan_meas_num_expected l s.uplink.length)
            (measSums l s.uplink
              (if lchan_meas_num_expected l s.uplink.length < s.uplink.length
               then s.uplink.length - lchan_meas_num_expected l s.uplink.length
               else 0)
              (lchan_meas_num_expected l s.uplink.length))).irssi_full : Nat) : Int))
        rx_qual := ber10k_to_rxqual (meas_divide s
            (lchan_meas_num_expected l s.uplink.length)
            (measSums l s.uplink
              (if lchan_meas_num_expected l s.uplink.length < s.uplink.length
               then s.uplink.length - lchan_meas_num_expected l s.uplink.length
               else 0)
              (lchan_meas_num_expected l s.uplink.length))).ber_full } := by
  simp only [lchan_meas_check_compute, hc, Bool.true_eq_false, if_false,
    compute_extended_preserves_ul_res]

/-- When no period completes, lchan_meas_check_compute is a no-op. -/
lemma check_compute_noop (l : Lchan) (s : LchanMeas) (fn : Nat)
    (hc : is_meas_complete l fn = false) :
    lchan_meas_check_compute l s fn = (0, s) := by
  simp [lchan_meas_check_compute, hc]

/-- On an empty buffer at a period end, the whole interval is filled with
dummies: the FULL BER average is 10000 (RXQUAL 7) and the FULL RSSI falls
back to the dummy -109 dBm. -/
lemma check_compute_empty (l : Lchan) (s : LchanMeas) (fn : Nat)
    (hc : is_meas_complete l fn = true) (hup : s.uplink = []) :
    (lchan_meas_check_compute l s fn).1 = 1 ∧
    (meas_divide s (lchan_meas_num_expected l s.uplink.length)
      (measSums l s.uplink 0
        (lchan_meas_num_expected l s.uplink.length))).ber_full = 10000 ∧
    (lchan_meas_check_compute l s fn).2.ul_res.full.rx_qual = 7 ∧
    (lchan_meas_check_compute l s fn).2.ul_res.full.rx_lev = dbm2rxlev (-109) := by
  obtain ⟨hEpos, hEle⟩ := meas_expected_bounds l fn s.uplink.length hc
  have hlen0 : s.uplink.length = 0 := by rw [hup]; rfl
  obtain ⟨hs1, hs2, hs3, hs4, hs5, hs6, hs7, hs8, hs9⟩ :=
    measSums_spec l s.uplink 0 (lchan_meas_num_expected l s.uplink.length)
      (Or.inr rfl)
  have hA : recent_samples s.uplink 0
      (lchan_meas_num_expected l s.uplink.length) = [] := by
    rw [hup]; simp [recent_samples]
  rw [hA] at hs1 hs2 hs5
  simp only [List.map_nil, List.sum_nil, List.length_nil, Nat.zero_add,
    Nat.sub_zero] at hs1 hs2 hs5
  have hmodid : lchan_meas_num_expected l s.uplink.length *
      MEASUREMENT_DUMMY_BER % U32 =
      lchan_meas_num_expected l s.uplink.length * MEASUREMENT_DUMMY_BER := by
    apply Nat.mod_eq_of_lt
    have : lchan_meas_num_expected l s.uplink.length *
        MEASUREMENT_DUMMY_BER ≤ 25 * 10000 :=
      Nat.mul_le_mul hEle (le_refl _)
    unfold U32
    omega
  have hber : (meas_divide s (lchan_meas_num_expected l s.uplink.length)
      (measSums l s.uplink 0
        (lchan_meas_num_expected l s.uplink.length))).ber_full = 10000 := by
    simp only [meas_divide, hs1, hmodid]
    exact Nat.mul_div_cancel_left _ hEpos
  have hirssi : (meas_divide s (lchan_meas_num_expected l s.uplink.length)
      (measSums l s.uplink 0
        (lchan_meas_num_expected l s.uplink.length))).irssi_full =
      MEASUREMENT_DUMMY_IRSSI := by
    simp [meas_divide, hs2]
  have hexc : (if lchan_meas_num_expected l s.uplink.length <
      s.uplink.length then
      s.uplink.length - lchan_meas_num_expected l s.uplink.length else 0) = 0 := by
    rw [if_neg]
    omega
  refine ⟨(check_compute_completes l s fn hc).1, hber, ?_, ?_⟩ <;>
  · rw [check_compute_ul_res_full l s fn hc, hexc]
    simp only [hber, hirssi]
    norm_num [ber10k_to_rxqual, MEASUREMENT_DUMMY_IRSSI]

/-! ## Claim C4 — all-dummy period result -/

/-- Claim C4: for a logical channel whose buffer holds zero samples at a
frame number where the measurement period completes,
lchan_meas_check_compute returns 1, the FULL BER average is 10000 (100%
BER, hence RXQUAL_FULL = 7) and the FULL RX level is derived from the
-109 dBm noise-floor dummy RSSI. -/
theorem c4_all_dummy_period (l : Lchan) (s : LchanMeas) (fn : Nat)
    (hc : is_meas_complete l fn = true) (hup : s.uplink = []) :
    (lchan_meas_check_compute l s fn).1 = 1 ∧
    (meas_divide s (lchan_meas_num_expected l s.uplink.length)
      (measSums l s.uplink 0
        (lchan_meas_num_expected l s.uplink.length))).ber_full = 10000 ∧
    (lchan_meas_check_compute l s fn).2.ul_res.full.rx_qual = 7 ∧
    (lchan_meas_check_compute l s fn).2.ul_res.full.rx_lev = dbm2rxlev (-109) :=
  check_compute_empty l s fn hc hup

/-- Witness for claim C4: the TCH/F timeslot-0 channel with an empty
buffer at frame number 12. -/
theorem c4_all_dummy_period_witness :
    is_meas_complete exLchanTchF 12 = true ∧ exMeasEmpty.uplink = [] ∧
    (lchan_meas_check_compute exLchanTchF exMeasEmpty 12).1 = 1 ∧
    (lchan_meas_check_compute exLchanTchF exMeasEmpty 12).2.ul_res.full.rx_qual = 7 :=
  ⟨by decide, rfl,
   (c4_all_dummy_period exLchanTchF exMeasEmpty 12 (by decide) rfl).1,
   (c4_all_dummy_period exLchanTchF exMeasEmpty 12 (by decide) rfl).2.2.1⟩

/-! ## Claim C1 — the period computation is not idempotent -/

/-- Claim C1, counterexample: after a completed period of 25 good samples
(FULL RXQUAL 0), immediately calling lchan_meas_check_compute again with
the same frame number reports a second completed period (returns 1 again)
and overwrites the stored aggregated result with the all-dummy aggregate
(FULL RXQUAL becomes 7), contradicting the claimed no-op. -/
theorem c1_counterexample :
    (lchan_meas_check_compute exLchanTchF exMeasGood 12).1 = 1 ∧
    (lchan_meas_check_compute exLchanTchF exMeasGood 12).2.uplink = [] ∧
    (lchan_meas_check_compute exLchanTchF exMeasGood 12).2.ul_res.full.rx_qual = 0 ∧
    (lchan_meas_check_compute exLchanTchF
      (lchan_meas_check_compute exLchanTchF exMeasGood 12).2 12).1 = 1 ∧
    (lchan_meas_check_compute exLchanTchF
      (lchan_meas_check_compute exLchanTchF exMeasGood 12).2 12).2.ul_res ≠
      (lchan_meas_check_compute exLchanTchF exMeasGood 12).2.ul_res := by
  refine ⟨rfl, rfl, rfl, rfl, ?_⟩
  decide

/-- Claim C1 (amended): is_meas_complete depends only on the frame
number, so a second call immediately after a completed period is NOT a
no-op: it reports a completed period again and re-runs the computation
over the now-empty buffer, overwriting the stored aggregated result with
the all-dummy aggregate (FULL BER 10000, RXQUAL_FULL 7, FULL RX level
from -109 dBm).  The second call is a no-op exactly at the frame numbers
where no period completes. -/
theorem c1_second_call_recomputes (l : Lchan) (s : LchanMeas) (fn : Nat)
    (h1 : (lchan_meas_check_compute l s fn).1 = 1) :
    (lchan_meas_check_compute l s fn).2.uplink = [] ∧
    (lchan_meas_check_compute l
      (lchan_meas_check_compute l s fn).2 fn).1 = 1 ∧
    (lchan_meas_check_compute l
      (lchan_meas_check_compute l s fn).2 fn).2.ul_res.full.rx_qual = 7 ∧
    (lchan_meas_check_compute l
      (lchan_meas_check_compute l s fn).2 fn).2.ul_res.full.rx_lev =
      dbm2rxlev (-109) ∧
    (∀ fn2, is_meas_complete l fn2 = false →
      lchan_meas_check_compute l (lchan_meas_check_compute l s fn).2 fn2 =
        (0, (lchan_meas_check_compute l s fn).2)) := by
  have hc : is_meas_complete l fn = true := by
    by_contra hcf
    rw [check_compute_noop l s fn (Bool.not_eq_true _ ▸ Bool.eq_false_iff.mpr hcf)] at h1
    exact absurd h1 (by norm_num)
  have hreset := (check_compute_completes l s fn hc).2
  obtain ⟨e1, _, e3, e4⟩ :=
    check_compute_empty l (lchan_meas_check_compute l s fn).2 fn hc hreset
  exact ⟨hreset, e1, e3, e4,
    fun fn2 hc2 => check_compute_noop l _ fn2 hc2⟩

/-- Witness for claim C1's amended theorem at the concrete good-sample
period. -/
theorem c1_second_call_recomputes_witness :
    (lchan_meas_check_compute exLchanTchF exMeasGood 12).1 = 1 ∧
    (lchan_meas_check_compute exLchanTchF
      (lchan_meas_check_compute exLchanTchF exMeasGood 12).2 12).1 = 1 :=
  ⟨by decide,
   (c1_second_call_recomputes exLchanTchF exMeasGood 12 (by decide)).2.1⟩

/-! ## Claim C5 — averaging policy of the period computation -/

/-- Claim C5, counterexample: for a completed period with 25
actually-received samples whose inverted RSSI values are all 0, the
average over the actually-received samples is 0, but the code substitutes
the dummy noise-floor RSSI (109, i.e. -109 dBm) because it only tests
whether the RSSI SUM is zero — so the RSSI result does include a dummy
value even though samples were received, contradicting part (3) of the
claim ("divided by the actual count, never including dummy values"). -/
theorem c5_counterexample :
    (∀ m ∈ exMeasZeroRssi.uplink, m.inv_rssi = 0) ∧
    (exMeasZeroRssi.uplink.map BtsUlMeas.inv_rssi).sum /
      exMeasZeroRssi.uplink.length = 0 ∧
    exMeasZeroRssi.uplink.length = 25 ∧
    (meas_divide exMeasZeroRssi 25
      (measSums exLchanTchF exMeasZeroRssi.uplink 0 25)).irssi_full = 109 ∧
    (109 : Nat) = measurement_dummy.inv_rssi ∧
    (lchan_meas_check_compute exLchanTchF exMeasZeroRssi 12).2.ul_res.full.rx_lev =
      dbm2rxlev (-109) := by
  refine ⟨?_, rfl, rfl, rfl, rfl, rfl⟩
  decide

/-- Claim C5 (amended): for every completed period, (1) if more samples
were received than expected, only the most recent `expected` samples are
consumed (the oldest excess is skipped); (2) if fewer were received, the
missing positions are padded with the fixed dummy sample for the BER sums
only; (3) the RSSI, C/I and timing-offset sums range over exactly the
actually-received consumed samples, and the corresponding averages divide
by the actual count whenever that count is nonzero — except that the RSSI
average falls back to the dummy -109 dBm whenever the RSSI sum is zero
(in particular when no sample was received), and the C/I and
timing-offset results fall back to the previous period's stored values
when no sample was received. -/
theorem c5_averaging_policy (l : Lchan) (s : LchanMeas) (fn : Nat)
    (E exc : Nat) (A : List BtsUlMeas) (a : MeasAcc) (d : MeasAvg)
    (hc : is_meas_complete l fn = true)
    (hE : E = lchan_meas_num_expected l s.uplink.length)
    (hexc : exc = if lchan_meas_num_expected l s.uplink.length <
        s.uplink.length
      then s.uplink.length - lchan_meas_num_expected l s.uplink.length else 0)
    (hA : A = recent_samples s.uplink exc E)
    (ha : a = measSums l s.uplink exc E)
    (hd : d = meas_divide s E a)
    (hberB : ∀ m ∈ s.uplink, m.ber10k ≤ 10000)
    (hrssiB : ∀ m ∈ s.uplink, m.inv_rssi ≤ 255) :
    (E ≤ s.uplink.length → A = s.uplink.drop (s.uplink.length - E)) ∧
    (s.uplink.length ≤ E → A = s.uplink) ∧
    a.ber_full_sum = (A.map BtsUlMeas.ber10k).sum +
      (E - A.length) * MEASUREMENT_DUMMY_BER ∧
    a.irssi_full_sum = (A.map BtsUlMeas.inv_rssi).sum ∧
    a.ta256b_sum = (A.map BtsUlMeas.ta_offs_256bits).sum ∧
    a.ci_full_sum = (A.map BtsUlMeas.ci_cb).sum ∧
    a.num_ul_meas_actual = A.length ∧
    a.num_ul_meas_subst = E - A.length ∧
    (0 < A.length →
      d.ta256b = Int.tdiv a.ta256b_sum A.length ∧
      d.ci_full = Int.tdiv a.ci_full_sum A.length) ∧
    (a.irssi_full_sum ≠ 0 → d.irssi_full = a.irssi_full_sum / A.length) := by
  obtain ⟨hEpos, hEle⟩ := meas_expected_bounds l fn s.uplink.length hc
  rw [← hE] at hexc hEpos hEle
  have hH : exc + E ≤ s.uplink.length ∨ exc = 0 := by
    rw [hexc]
    split
    · left; omega
    · right; rfl
  obtain ⟨hs1, hs2, hs3, hs4, hs5, hs6, hs7, hs8, hs9⟩ :=
    measSums_spec l s.uplink exc E hH
  rw [← hA] at hs1 hs2 hs3 hs4 hs5 hs6 hs7 hs8 hs9
  rw [← ha] at hs1 hs2 hs3 hs4 hs5 hs6 hs7 hs8 hs9
  have hsub : A ⊆ s.uplink := by
    rw [hA]
    unfold recent_samples
    intro x hx
    exact List.drop_subset exc s.uplink (List.take_subset E _ hx)
  have hAlenE : A.length ≤ E := by
    rw [hA]
    unfold recent_samples
    rw [List.length_take]
    omega
  have hbersum : (A.map BtsUlMeas.ber10k).sum ≤ A.length * 10000 := by
    have := List.sum_le_card_nsmul (A.map BtsUlMeas.ber10k) 10000
      (by
        intro x hx
        obtain ⟨m, hm, hmx⟩ := List.mem_map.mp hx
        exact hmx ▸ hberB m (hsub hm))
    simpa using this
  have hrssisum : (A.map BtsUlMeas.inv_rssi).sum ≤ A.length * 255 := by
    have := List.sum_le_card_nsmul (A.map BtsUlMeas.inv_rssi) 255
      (by
        intro x hx
        obtain ⟨m, hm, hmx⟩ := List.mem_map.mp hx
        exact hmx ▸ hrssiB m (hsub hm))
    simpa using this
  have hbermod : ((A.map BtsUlMeas.ber10k).sum +
      (E - A.length) * MEASUREMENT_DUMMY_BER) % U32 =
      (A.map BtsUlMeas.ber10k).sum + (E - A.length) * MEASUREMENT_DUMMY_BER := by
    apply Nat.mod_eq_of_lt
    have h1 : (E - A.length) * MEASUREMENT_DUMMY_BER ≤ 25 * 10000 := by
      unfold MEASUREMENT_DUMMY_BER
      have : E - A.length ≤ 25 := by omega
      exact Nat.mul_le_mul this (le_refl _)
    have h2 : A.length * 10000 ≤ 25 * 10000 := by
      have : A.length ≤ 25 := by omega
      exact Nat.mul_le_mul this (le_refl _)
    unfold U32
    omega
  have hrssimod : (A.map BtsUlMeas.inv_rssi).sum % U32 =
      (A.map BtsUlMeas.inv_rssi).sum := by
    apply Nat.mod_eq_of_lt
    have : A.length * 255 ≤ 25 * 255 := by
      have : A.length ≤ 25 := by omega
      exact Nat.mul_le_mul this (le_refl _)
    unfold U32
    omega
  refine ⟨?_, ?_, ?_, ?_, hs4, hs3, hs5, ?_, ?_, ?_⟩
  · intro hle
    rw [hA, hexc]
    unfold recent_samples
    split
    · apply List.take_of_length_le
      rw [List.length_drop]
      omega
    · have hlen : s.uplink.length = E := by omega
      rw [hlen, Nat.sub_self, List.drop_zero]
      apply List.take_of_length_le
      omega
  · intro hle
    rw [hA, hexc]
    unfold recent_samples
    rw [if_neg (by omega), List.drop_zero]
    exact List.take_of_length_le hle
  · rw [hs1, hbermod]
  · rw [hs2, hrssimod]
  · rw [hs6]
  · intro hpos
    rw [hd]
    unfold meas_divide
    rw [hs5]
    constructor <;> simp only [if_neg (by omega : ¬ A.length = 0)]
  · intro hne
    rw [hd]
    unfold meas_divide
    rw [hs5]
    simp only [if_neg hne]

/-- Witness for claim C5's amended theorem at the concrete good-sample
period (25 received samples, 25 expected). -/
theorem c5_averaging_policy_witness :
    (measSums exLchanTchF exMeasGood.uplink 0 25).irssi_full_sum =
      ((recent_samples exMeasGood.uplink 0 25).map BtsUlMeas.inv_rssi).sum ∧
    (measSums exLchanTchF exMeasGood.uplink 0 25).num_ul_meas_actual =
      (recent_samples exMeasGood.uplink 0 25).length :=
  ⟨(c5_averaging_policy exLchanTchF exMeasGood 12 25 0
      (recent_samples exMeasGood.uplink 0 25)
      (measSums exLchanTchF exMeasGood.uplink 0 25)
      (meas_divide exMeasGood 25 (measSums exLchanTchF exMeasGood.uplink 0 25))
      (by decide) (by decide) (by decide) rfl rfl rfl
      (by decide) (by decide)).2.2.2.1,
   (c5_averaging_policy exLchanTchF exMeasGood 12 25 0
      (recent_samples exMeasGood.uplink 0 25)
      (measSums exLchanTchF exMeasGood.uplink 0 25)
      (meas_divide exMeasGood 25 (measSums exLchanTchF exMeasGood.uplink 0 25))
      (by decide) (by decide) (by decide) rfl rfl rfl
      (by decide) (by decide)).2.2.2.2.2.2.1⟩

/-! ## Claim C9 — bounded variance arithmetic -/

/-- The per-sample squared deviation, as computed (in unsigned math) by
lchan_meas_compute_extended. -/
def sq_dev (mean : Int) (m : BtsUlMeas) : Nat :=
  (m.ta_offs_256bits - mean).natAbs * (m.ta_offs_256bits - mean).natAbs

/-- Under per-sample bounds, the wrapping fold of sq_diff_sum64 computes
the plain sum of squared deviations. -/
lemma sq_diff_fold_eq (mean : Int) :
    ∀ (ms : List BtsUlMeas) (acc : Nat),
    (∀ m ∈ ms, sq_dev mean m < U32) →
    acc + (ms.map (sq_dev mean)).sum < U64 →
    ms.foldl
      (fun acc2 m =>
        (acc2 + ((m.ta_offs_256bits - mean).natAbs
                  * (m.ta_offs_256bits - mean).natAbs) % U32) % U64) acc =
      acc + (ms.map (sq_dev mean)).sum := by
  intro ms
  induction ms with
  | nil =>
    intro acc _ _
    simp
  | cons m ms ih =>
    intro acc hb hlt
    simp only [List.foldl_cons, List.map_cons, List.sum_cons] at *
    have hsq : ((m.ta_offs_256bits - mean).natAbs
        * (m.ta_offs_256bits - mean).natAbs) % U32 = sq_dev mean m := by
      apply Nat.mod_eq_of_lt
      exact hb m (List.mem_cons_self m ms)
    rw [hsq]
    have hout : (acc + sq_dev mean m) % U64 = acc + sq_dev mean m := by
      apply Nat.mod_eq_of_lt
      omega
    rw [hout]
    rw [ih (acc + sq_dev mean m)
      (fun x hx => hb x (List.mem_cons_of_mem m hx)) (by omega)]
    omega

/-- The counts chosen by lchan_meas_compute_extended add back up to the
buffer size: the loop visits each buffered sample at most once. -/
lemma ext_num_and_excess_sum (l : Lchan) (s : LchanMeas) :
    (ext_num_and_excess l s).2 + (ext_num_and_excess l s).1 =
      s.uplink.length ∧
    (ext_num_and_excess l s).1 ≤ s.uplink.length := by
  simp only [ext_num_and_excess]
  split <;> constructor <;> simp <;> omega

/-- The samples visited by the extended-statistics loop all come from the
buffer. -/
lemma meas_used_subset (up : List BtsUlMeas) (exc num : Nat)
    (h : exc + num ≤ up.length) :
    ∀ m ∈ meas_used up exc num, m ∈ up := by
  intro m hm
  obtain ⟨i, hi, hdi⟩ := List.mem_map.mp hm
  rw [List.mem_range] at hi
  have hidx : i + exc < up.length := by omega
  rw [List.getD_eq_getElem?_getD, List.getElem?_eq_getElem hidx,
    Option.getD_some] at hdi
  exact hdi ▸ List.getElem_mem hidx

/-- The extended-statistics loop runs over exactly
(ext_num_and_excess).1 samples. -/
lemma meas_used_length (up : List BtsUlMeas) (exc num : Nat) :
    (meas_used up exc num).length = num := by
  simp [meas_used]

/-- Claim C9: in lchan_meas_compute_extended, for every buffer of at most
104 samples whose timing offsets are int16 values and for any int16 mean,
each per-sample squared deviation fits in a uint32, the 64-bit sum of
squared deviations divided by the number of samples is at most
UINT32_MAX, and therefore the OSMO_ASSERT(sq_diff_sum <= UINT32_MAX)
condition always holds. -/
theorem c9_variance_bounded (l : Lchan) (s : LchanMeas)
    (hlen : s.uplink.length ≤ 104)
    (hta : ∀ m ∈ s.uplink,
      -32768 ≤ m.ta_offs_256bits ∧ m.ta_offs_256bits ≤ 32767)
    (hmean : -32768 ≤ s.ms_toa256 ∧ s.ms_toa256 ≤ 32767) :
    (∀ m ∈ s.uplink, sq_dev s.ms_toa256 m ≤ U32 - 1) ∧
    sq_diff_sum64 s.ms_toa256
        (meas_used s.uplink (ext_num_and_excess l s).2
          (ext_num_and_excess l s).1) /
      (ext_num_and_excess l s).1 ≤ U32 - 1 ∧
    lchan_meas_compute_extended_assert_ok l s = true := by
  have hdev : ∀ m ∈ s.uplink, sq_dev s.ms_toa256 m ≤ 4294836225 := by
    intro m hm
    obtain ⟨h1, h2⟩ := hta m hm
    have habs : (m.ta_offs_256bits - s.ms_toa256).natAbs ≤ 65535 := by
      omega
    exact Nat.mul_le_mul habs habs
  obtain ⟨hsum, hle⟩ := ext_num_and_excess_sum l s
  have hsubset := meas_used_subset s.uplink (ext_num_and_excess l s).2
    (ext_num_and_excess l s).1 (by omega)
  have hulen := meas_used_length s.uplink (ext_num_and_excess l s).2
    (ext_num_and_excess l s).1
  set used := meas_used s.uplink (ext_num_and_excess l s).2
    (ext_num_and_excess l s).1 with hused
  have hdevu : ∀ m ∈ used, sq_dev s.ms_toa256 m ≤ 4294836225 :=
    fun m hm => hdev m (hsubset m hm)
  have hmapsum : ((used.map (sq_dev s.ms_toa256)).sum ≤
      used.length * 4294836225) := by
    have := List.sum_le_card_nsmul (used.map (sq_dev s.ms_toa256)) 4294836225
      (by
        intro x hx
        obtain ⟨m, hm, hmx⟩ := List.mem_map.mp hx
        exact hmx ▸ hdevu m hm)
    simpa using this
  have hlenu : used.length ≤ 104 := by omega
  have htotal : (used.map (sq_dev s.ms_toa256)).sum < U64 := by
    have h1 : used.length * 4294836225 ≤ 104 * 4294836225 :=
      Nat.mul_le_mul hlenu (le_refl _)
    unfold U64
    omega
  have hfold : sq_diff_sum64 s.ms_toa256 used =
      (used.map (sq_dev s.ms_toa256)).sum := by
    unfold sq_diff_sum64
    rw [sq_diff_fold_eq s.ms_toa256 used 0
      (fun m hm => by
        have := hdevu m hm
        unfold U32
        omega)
      (by omega)]
    omega
  have hdivle : sq_diff_sum64 s.ms_toa256 used /
      (ext_num_and_excess l s).1 ≤ U32 - 1 := by
    rcases Nat.eq_zero_or_pos (ext_num_and_excess l s).1 with hz | hpos
    · rw [hz]
      simp [U32]
    · rw [hfold]
      have hb : (used.map (sq_dev s.ms_toa256)).sum ≤
          (ext_num_and_excess l s).1 * 4294836225 := by
        rw [hulen] at hmapsum
        omega
      have hdiv2 : (used.map (sq_dev s.ms_toa256)).sum /
          (ext_num_and_excess l s).1 ≤ 4294836225 :=
        Nat.div_le_of_le_mul hb
      exact le_trans hdiv2 (by norm_num [U32])
  refine ⟨fun m hm => by
      have := hdev m hm
      unfold U32
      omega,
    hdivle, ?_⟩
  unfold lchan_meas_compute_extended_assert_ok
  split
  · rfl
  · exact decide_eq_true hdivle

/-- Witness for claim C9 at the concrete good-sample buffer. -/
theorem c9_variance_bounded_witness :
    exMeasGood.uplink.length ≤ 104 ∧
    lchan_meas_compute_extended_assert_ok exLchanTchF exMeasGood = true :=
  ⟨by decide,
   (c9_variance_bounded exLchanTchF exMeasGood (by decide)
      (by decide) (by decide)).2.2⟩

end OsmoBts
